import Mathlib

/-!
Verification development for the qiita_high_likes_rss repository.

The repository fetches an Atom feed of articles, attaches a likes count to
each item through a paginated API, merges the result into a persistent keyed
store, prunes the store by age and capacity, and selects a filtered, ordered,
truncated list of records for rendering.

This file gives a shallow embedding of the core data model and operations
(src/main.rs, src/modules/state.rs, src/modules/qiita_api.rs,
src/modules/error.rs) and proves properties about them.  Machine integers
are modelled as Nat/Int; the Rust HashMap is modelled as a list of records
in iteration order (keys unique); fallible operations return Option/Except.
-/

namespace QiitaFeed

/-! ## Three-way comparisons

Models of Rust Ord::cmp on integers and of Option Ord (None is least). -/

/-- Model of u32::cmp. -/
def cmpNat (a b : Nat) : Ordering :=
  if a < b then .lt else if a = b then .eq else .gt

/-- Model of i64/instant cmp on the timestamp value domain. -/
def cmpInt (a b : Int) : Ordering :=
  if a < b then .lt else if a = b then .eq else .gt

/-- Model of Option::cmp: None sorts below Some, Some compares inner values. -/
def optCmp {α : Type} (c : α → α → Ordering) : Option α → Option α → Ordering
  | none, none => .eq
  | none, some _ => .lt
  | some _, none => .gt
  | some a, some b => c a b

/-! ## Timestamp parsing

Modelled from the chrono library function DateTime::parse_from_rfc3339
(a dependency of the repository, used by src/main.rs and
src/modules/state.rs).  A timestamp string of shape
YYYY-MM-DDTHH:MM:SS[.fraction](Z|+HH:MM|-HH:MM) with in-range fields
(years 0001-9999, no leap seconds) parses to the absolute instant it
denotes, encoded as a signed count of nanoseconds on a common epoch;
anything else parses to none.  Only the Option structure and the order of
the parsed instants matter to the repository code. -/

/-- Parse exactly n decimal digits, accumulating their value. -/
def parseDigitsAcc : Nat → Nat → List Char → Option (Nat × List Char)
  | 0, acc, cs => some (acc, cs)
  | n + 1, acc, c :: cs =>
      if c.isDigit then parseDigitsAcc n (acc * 10 + (c.toNat - 48)) cs else none
  | _ + 1, _, [] => none

/-- Consume one expected character. -/
def expectChar (c : Char) : List Char → Option (List Char)
  | x :: xs => if x = c then some xs else none
  | [] => none

/-- Split off a leading run of decimal digits. -/
def spanDigits : List Char → List Char × List Char
  | [] => ([], [])
  | c :: cs =>
      if c.isDigit then
        let (d, r) := spanDigits cs
        (c :: d, r)
      else ([], c :: cs)

/-- Gregorian leap-year rule. -/
def isLeapYear (y : Nat) : Bool := (y % 4 == 0 && y % 100 != 0) || y % 400 == 0

/-- Number of days in a month of a given year. -/
def daysInMonth (y m : Nat) : Nat :=
  if m = 2 then (if isLeapYear y then 29 else 28)
  else if m = 4 ∨ m = 6 ∨ m = 9 ∨ m = 11 then 30
  else 31

/-- Days elapsed from 0000-03-01 to the given civil date (valid for
years 1-9999), via the standard era/year-of-era decomposition. -/
def daysFromCivil (y m d : Nat) : Nat :=
  let yAdj := if m ≤ 2 then y - 1 else y
  let era := yAdj / 400
  let yoe := yAdj % 400
  let mp := (m + 9) % 12
  let doy := (153 * mp + 2) / 5 + (d - 1)
  let doe := yoe * 365 + yoe / 4 - yoe / 100 + doy
  era * 146097 + doe

/-- Value in nanoseconds of a fractional-second digit string (at most the
first nine digits are significant). -/
def fracNanos (ds : List Char) : Nat :=
  let ds9 := ds.take 9
  let v := ds9.foldl (fun a c => a * 10 + (c.toNat - 48)) 0
  v * 10 ^ (9 - ds9.length)

/-- Optional fractional seconds: a dot must be followed by at least one
digit. -/
def parseFraction : List Char → Option (Nat × List Char)
  | '.' :: rest =>
      let (ds, r) := spanDigits rest
      if ds.isEmpty then none else some (fracNanos ds, r)
  | cs => some (0, cs)

/-- UTC offset: Z (or z) for zero, or a signed HH:MM offset in minutes. -/
def parseOffsetMinutes : List Char → Option (Int × List Char)
  | 'Z' :: r => some (0, r)
  | 'z' :: r => some (0, r)
  | '+' :: r => do
      let (h, r) ← parseDigitsAcc 2 0 r
      let r ← expectChar ':' r
      let (mi, r) ← parseDigitsAcc 2 0 r
      if h ≤ 23 ∧ mi ≤ 59 then pure (((h * 60 + mi : Nat) : Int), r) else none
  | '-' :: r => do
      let (h, r) ← parseDigitsAcc 2 0 r
      let r ← expectChar ':' r
      let (mi, r) ← parseDigitsAcc 2 0 r
      if h ≤ 23 ∧ mi ≤ 59 then pure (-((h * 60 + mi : Nat) : Int), r) else none
  | _ => none

/-- Modelled from the chrono library: DateTime::parse_from_rfc3339, returning
the denoted absolute instant in nanoseconds on a common epoch. -/
def parse_from_rfc3339 (s : String) : Option Int := do
  let (y, r) ← parseDigitsAcc 4 0 s.toList
  let r ← expectChar '-' r
  let (mo, r) ← parseDigitsAcc 2 0 r
  let r ← expectChar '-' r
  let (d, r) ← parseDigitsAcc 2 0 r
  let r ← (match r with
           | 'T' :: rest => some rest
           | 't' :: rest => some rest
           | _ => none)
  let (h, r) ← parseDigitsAcc 2 0 r
  let r ← expectChar ':' r
  let (mi, r) ← parseDigitsAcc 2 0 r
  let r ← expectChar ':' r
  let (se, r) ← parseDigitsAcc 2 0 r
  let (nanos, r) ← parseFraction r
  let (offMin, r) ← parseOffsetMinutes r
  if r.isEmpty ∧ 1 ≤ y ∧ 1 ≤ mo ∧ mo ≤ 12 ∧ 1 ≤ d ∧ d ≤ daysInMonth y mo
      ∧ h ≤ 23 ∧ mi ≤ 59 ∧ se ≤ 59 then
    pure (((daysFromCivil y mo d * 86400 + h * 3600 + mi * 60 + se : Nat) : Int) * 1000000000
          + (nanos : Int) - offMin * 60 * 1000000000)
  else none

/-! ## Data model

QiitaItem from src/modules/qiita_api.rs, StoredItem from
src/modules/state.rs.  The u32 likes_count is modelled as Nat. -/

/-- One freshly fetched feed item (struct QiitaItem). -/
structure QiitaItem where
  item_id : Option String
  title : String
  link : String
  summary : Option String
  published : Option String
  updated : Option String
  author_name : Option String
  likes_count : Nat
deriving DecidableEq, Repr

/-- One persisted record (struct StoredItem). -/
structure StoredItem where
  key : String
  item_id : Option String
  title : String
  link : String
  summary : Option String
  published : Option String
  updated : Option String
  author_name : Option String
  likes_count : Nat
  last_seen : String
deriving DecidableEq, Repr

/-! ## Selector ordering (src/main.rs) -/

/-- Model of published_time in src/main.rs: the parsed updated timestamp,
falling back to the parsed published timestamp. -/
def published_time (item : StoredItem) : Option Int :=
  (item.updated.bind parse_from_rfc3339).orElse
    (fun _ => item.published.bind parse_from_rfc3339)

/-- Model of select_updated_time in src/modules/state.rs: the later of the
parsed updated and published timestamps. -/
def select_updated_time (item : StoredItem) : Option Int :=
  let updated := item.updated.bind parse_from_rfc3339
  let published := item.published.bind parse_from_rfc3339
  match updated, published with
  | some a, some b => some (if a > b then a else b)
  | some a, none => some a
  | none, some b => some b
  | none, none => none

/-- Model of compare_items in src/main.rs: likes count descending, then
published_time descending (None losing to Some, as Rust Option Ord). -/
def compare_items (a b : StoredItem) : Ordering :=
  let likes := cmpNat b.likes_count a.likes_count
  if likes ≠ .eq then likes
  else optCmp cmpInt (published_time b) (published_time a)

/-! ## Stable sorting

Rust slice::sort_by is a stable sort: its output is the unique permutation
of the input that has no inversion under the comparator and keeps tied
elements in input order.  Stable insertion sort below produces exactly that
list and so models the observable result of sort_by. -/

/-- Insert x before the first element y with le x y (stable insert). -/
def insertBy {α : Type} (le : α → α → Bool) (x : α) : List α → List α
  | [] => [x]
  | y :: ys => if le x y then x :: y :: ys else y :: insertBy le x ys

/-- Stable insertion sort. -/
def isortBy {α : Type} (le : α → α → Bool) : List α → List α
  | [] => []
  | x :: xs => insertBy le x (isortBy le xs)

/-- Non-strict order induced by compare_items, as used by sort_by. -/
def itemsLe (a b : StoredItem) : Bool := compare_items a b != .gt

/-- Model of the Selector in src/main.rs (run, lines 68-79): filter the
snapshot of stored records by the minimum likes threshold, stable-sort by
compare_items, and truncate to max_feed_entries.  The snapshot list is the
HashMap values in iteration order. -/
def selectItems (snapshot : List StoredItem) (minLikes maxEntries : Nat) :
    List StoredItem :=
  let items := snapshot.filter (fun item => minLikes ≤ item.likes_count)
  let sorted := isortBy itemsLe items
  sorted.take maxEntries

/-! ## Error model (src/modules/error.rs) -/

/-- The three error categories of enum ErrorKind. -/
inductive ErrorKind
  | config
  | network
  | feed
deriving DecidableEq, Repr

/-- The distinct diagnostic messages constructed in src/modules/qiita_api.rs,
one constructor per format string, with the varying payloads kept. -/
inductive Msg
  | likesUnauthorized
  | likesJsonParseFailed
  | likesFetchFailedStatus (status attempt : Nat)
  | likesFetchFailedTransport (attempt : Nat)
  | feedReadFailed
  | feedFetchFailedStatus (status attempt : Nat)
  | feedFetchFailedTransport (attempt : Nat)
  | feedXmlParseFailed
  | feedMissingRoot
deriving DecidableEq, Repr

/-- Whether the message text instructs the user to configure the API
credential.  Only the 401 message of fetch_likes_page does (its source text
says to set QIITA_API_TOKEN); every other format string in
src/modules/qiita_api.rs reports a failure without mentioning the token. -/
def Msg.instructsCredentialConfig : Msg → Bool
  | .likesUnauthorized => true
  | _ => false

/-- Struct AppError. -/
structure AppError where
  kind : ErrorKind
  message : Msg
deriving DecidableEq, Repr

/-- Constructor AppError::network. -/
def AppError.network (m : Msg) : AppError := ⟨.network, m⟩

/-- Constructor AppError::feed. -/
def AppError.feed (m : Msg) : AppError := ⟨.feed, m⟩

/-- Constructor AppError::config. -/
def AppError.config (m : Msg) : AppError := ⟨.config, m⟩

/-- AppError::exit_code. -/
def AppError.exit_code (e : AppError) : Int :=
  match e.kind with
  | .config => 2
  | .network => 3
  | .feed => 4

/-- Modelled from src/modules/atom.rs and the write_output path of
src/main.rs: every output-formatting or output-writing failure is
constructed with AppError::feed, so it carries this kind. -/
def outputFormatErrorKind : ErrorKind := .feed

/-! ## HTTP fetch layer (src/modules/qiita_api.rs)

The network is abstracted as a function from the attempt number (1-based)
to that attempt's outcome.  The loops return the result together with the
number of attempts performed. -/

/-- Constant MAX_RETRIES. -/
def MAX_RETRIES : Nat := 3

/-- backoff_duration, in seconds. -/
def backoff_duration (attempt : Nat) : Nat := 2 ^ (attempt - 1)

/-- reqwest StatusCode::is_success. -/
def isSuccess (status : Nat) : Bool := 200 ≤ status && status ≤ 299

/-- reqwest StatusCode::is_server_error. -/
def is_server_error (status : Nat) : Bool := 500 ≤ status && status ≤ 599

/-- should_retry: 5xx or 429. -/
def should_retry (status : Nat) : Bool := is_server_error status || status == 429

/-- Outcome of one likes-page HTTP attempt: a response with a status and,
for the body, the number of like entries it parses to (none when the JSON
does not parse), or a transport error. -/
inductive LikesAttempt
  | response (status : Nat) (jsonItems : Option Nat)
  | transport

/-- One iteration of the fetch_likes_page loop body, classifying the
attempt's outcome in source order (401, then 2xx, then the retry guard).
The retry argument is the continuation of the loop: some when the Rust
guard attempt < MAX_RETRIES still allows a retry, none when attempts are
exhausted. -/
def likesAttemptResult (outcome : LikesAttempt) (attempt : Nat)
    (retry : Option (Except AppError Nat × Nat)) : Except AppError Nat × Nat :=
  match outcome with
  | .response status items =>
      if status = 401 then (.error (AppError.network .likesUnauthorized), attempt)
      else if isSuccess status then
        match items with
        | some n => (.ok n, attempt)
        | none => (.error (AppError.network .likesJsonParseFailed), attempt)
      else
        match retry, should_retry status with
        | some k, true => k
        | _, _ =>
            (.error (AppError.network (.likesFetchFailedStatus status attempt)), attempt)
  | .transport =>
      match retry with
      | some k => k
      | none => (.error (AppError.network (.likesFetchFailedTransport attempt)), attempt)

/-- The retry loop of fetch_likes_page.  The first Nat argument is the
number of retries still allowed (MAX_RETRIES - attempt), the second is the
current 1-based attempt number; the Rust guard attempt < MAX_RETRIES is
exactly remaining > 0. -/
def likesPageLoop (att : Nat → LikesAttempt) : Nat → Nat → Except AppError Nat × Nat
  | 0, attempt => likesAttemptResult (att attempt) attempt none
  | r + 1, attempt =>
      likesAttemptResult (att attempt) attempt (some (likesPageLoop att r (attempt + 1)))

/-- Model of fetch_likes_page over an abstract sequence of attempt
outcomes; returns the result and the number of HTTP calls made. -/
def fetch_likes_page (att : Nat → LikesAttempt) : Except AppError Nat × Nat :=
  likesPageLoop att (MAX_RETRIES - 1) 1

/-! ## Feed document parsing (src/modules/qiita_api.rs)

The roxmltree library is abstracted: a fetched body either fails to parse
as XML, or parses to a document that may or may not contain a feed root
element and carries a list of entry nodes.  Within an entry, child_text
trimming and link-attribute lookup are abstracted into optional fields. -/

/-- One entry node, after child_text extraction (fields are none when the
child is absent or its trimmed text is empty; link is the href of the
rel=alternate link child). -/
structure EntryNode where
  title : Option String
  link : Option String
  summary : Option String
  published : Option String
  updated : Option String
  author_name : Option String
deriving DecidableEq, Repr

/-- A fetched feed body as seen by parse_feed_xml. -/
inductive FeedDoc
  | unparseable
  | parsed (hasRoot : Bool) (entries : List EntryNode)
deriving DecidableEq, Repr

/-- Bool test that a list of characters begins with another. -/
def hasPrefixList : List Char → List Char → Bool
  | [], _ => true
  | _ :: _, [] => false
  | c :: cs, d :: ds => c = d && hasPrefixList cs ds

/-- Model of str::find for a fixed needle: index of the first occurrence. -/
def findSublistIdx (needle : List Char) : List Char → Option Nat
  | [] => if needle.isEmpty then some 0 else none
  | c :: cs =>
      if hasPrefixList needle (c :: cs) then some 0
      else match findSublistIdx needle cs with
        | some i => some (i + 1)
        | none => none

/-- Truncate a character list at the first occurrence of a character
(model of the slicing id_part[..end] at id_part.find(c)). -/
def truncAt (c : Char) (l : List Char) : List Char :=
  match l.findIdx? (fun x => x = c) with
  | some i => l.take i
  | none => l

/-- Model of extract_item_id in src/modules/qiita_api.rs: everything after
the first "/items/" marker, cut at the first '?' and then at the first
'#', none if the marker is absent or the remainder is empty. -/
def extract_item_id (link : String) : Option String :=
  let marker := "/items/".toList
  match findSublistIdx marker link.toList with
  | none => none
  | some i =>
      let idPart := link.toList.drop (i + marker.length)
      let idPart := truncAt '?' idPart
      let idPart := truncAt '#' idPart
      if idPart.isEmpty then none else some (String.mk idPart)

/-- The identity-hint derivation as claim C9 words it: the path component
immediately following the marker (that is, additionally cut at the next
path separator), with any trailing query or fragment stripped.  Stated for
comparison with extract_item_id; it is not what the source computes. -/
def extract_item_id_spec (link : String) : Option String :=
  let marker := "/items/".toList
  match findSublistIdx marker link.toList with
  | none => none
  | some i =>
      let comp := truncAt '/' (link.toList.drop (i + marker.length))
      let comp := truncAt '?' comp
      let comp := truncAt '#' comp
      if comp.isEmpty then none else some (String.mk comp)

/-- Per-entry extraction inside parse_feed_xml: an entry without a title
or without an alternate link is skipped; otherwise a QiitaItem is built
with likes_count 0 and the item_id hint from extract_item_id. -/
def entryToItem (e : EntryNode) : Option QiitaItem :=
  match e.title with
  | none => none
  | some title =>
      match e.link with
      | none => none
      | some link =>
          some { item_id := extract_item_id link, title := title, link := link,
                 summary := e.summary, published := e.published,
                 updated := e.updated, author_name := e.author_name,
                 likes_count := 0 }

/-- Model of parse_feed_xml: an unparseable document is a Network error,
a document without a feed root element is a Network error, and otherwise
the entries are extracted, skipping defective ones. -/
def parse_feed_xml (doc : FeedDoc) : Except AppError (List QiitaItem) :=
  match doc with
  | .unparseable => .error (AppError.network .feedXmlParseFailed)
  | .parsed false _ => .error (AppError.network .feedMissingRoot)
  | .parsed true entries => .ok (entries.filterMap entryToItem)

/-- Outcome of one feed HTTP attempt: a response with a status and a body
(none when reading the body text fails), or a transport error. -/
inductive FeedAttempt
  | response (status : Nat) (body : Option FeedDoc)
  | transport

/-- One iteration of the fetch_feed loop body; note the source has no 401
special case here.  The retry argument is as in likesAttemptResult. -/
def feedAttemptResult (outcome : FeedAttempt) (attempt : Nat)
    (retry : Option (Except AppError (List QiitaItem) × Nat)) :
    Except AppError (List QiitaItem) × Nat :=
  match outcome with
  | .response status body =>
      if isSuccess status then
        match body with
        | none => (.error (AppError.network .feedReadFailed), attempt)
        | some doc => (parse_feed_xml doc, attempt)
      else
        match retry, should_retry status with
        | some k, true => k
        | _, _ =>
            (.error (AppError.network (.feedFetchFailedStatus status attempt)), attempt)
  | .transport =>
      match retry with
      | some k => k
      | none => (.error (AppError.network (.feedFetchFailedTransport attempt)), attempt)

/-- The retry loop of fetch_feed.  Arguments as in likesPageLoop. -/
def feedLoop (att : Nat → FeedAttempt) :
    Nat → Nat → Except AppError (List QiitaItem) × Nat
  | 0, attempt => feedAttemptResult (att attempt) attempt none
  | r + 1, attempt =>
      feedAttemptResult (att attempt) attempt (some (feedLoop att r (attempt + 1)))

/-- Model of fetch_feed over an abstract sequence of attempt outcomes;
returns the result and the number of HTTP calls made. -/
def fetch_feed (att : Nat → FeedAttempt) : Except AppError (List QiitaItem) × Nat :=
  feedLoop att (MAX_RETRIES - 1) 1

/-! ## Pagination aggregator (fetch_likes_count) -/

/-- u32::saturating_add. -/
def u32SatAdd (a b : Nat) : Nat := min (a + b) 4294967295

/-- The page loop of fetch_likes_count.  Arguments: pages still allowed,
current 1-based page number, running total.  Returns the result, the
number of page fetches performed, and whether the approximation
diagnostic (upper page bound reached) was emitted.  The cast
likes.len() as u32 is len % 2^32; the length comparison against per_page
uses the uncast length. -/
def likesCountLoop (fetchPage : Nat → Except AppError Nat) (perPage : Nat) :
    Nat → Nat → Nat → Except AppError Nat × Nat × Bool
  | 0, page, total => (.ok total, page - 1, true)
  | r + 1, page, total =>
      match fetchPage page with
      | .error e => (.error e, page, false)
      | .ok len =>
          if len < perPage then (.ok (u32SatAdd total (len % 4294967296)), page, false)
          else likesCountLoop fetchPage perPage r (page + 1)
            (u32SatAdd total (len % 4294967296))

/-- Model of fetch_likes_count: iterate pages 1..max_pages, summing page
sizes saturatingly, stopping early at the first short page. -/
def fetch_likes_count (fetchPage : Nat → Except AppError Nat)
    (perPage maxPages : Nat) : Except AppError Nat × Nat × Bool :=
  likesCountLoop fetchPage perPage maxPages 1 0

/-- Saturating sum of the sizes of pages 1..k, accumulated left to right
exactly as the loop does. -/
def satSumUpTo (sizes : Nat → Nat) : Nat → Nat
  | 0 => 0
  | k + 1 => u32SatAdd (satSumUpTo sizes k) (sizes (k + 1) % 4294967296)

/-! ## State store (src/modules/state.rs)

The HashMap String -> StoredItem is modelled as a list of records whose
key fields are the map keys; list order stands for the (arbitrary) map
iteration order, and every consumer of the store below is parameterized
over that order.  HashMap::insert is modelled as remove-then-append,
which realizes the same key-to-record mapping. -/

/-- item_key: the endpoint id when present, otherwise the link. -/
def item_key (item : QiitaItem) : Option String :=
  match item.item_id with
  | some id => some id
  | none => some item.link

/-- The StoredItem built by merge_from_feed for one candidate: every
descriptive field copied wholesale, last_seen set to the merge time. -/
def storedOfItem (key : String) (item : QiitaItem) (nowStr : String) : StoredItem :=
  { key := key, item_id := item.item_id, title := item.title, link := item.link,
    summary := item.summary, published := item.published, updated := item.updated,
    author_name := item.author_name, likes_count := item.likes_count,
    last_seen := nowStr }

/-- HashMap::insert on the list model: any record under the same key is
dropped and the new record added. -/
def insertStore (store : List StoredItem) (v : StoredItem) : List StoredItem :=
  (store.filter (fun x => x.key ≠ v.key)) ++ [v]

/-- Model of StateStore::merge_from_feed: insert every candidate that has
an identity key (overwriting), count the merged ones. -/
def merge_from_feed (store : List StoredItem) (items : List QiitaItem)
    (nowStr : String) : List StoredItem × Nat :=
  items.foldl
    (fun acc item =>
      match item_key item with
      | none => acc
      | some key => (insertStore acc.1 (storedOfItem key item nowStr), acc.2 + 1))
    (store, 0)

/-- HashMap lookup on the list model. -/
def lookupStore (store : List StoredItem) (key : String) : Option StoredItem :=
  store.find? (fun x => x.key = key)

/-- Number of records stored under a key. -/
def countKey (store : List StoredItem) (key : String) : Nat :=
  (store.filter (fun x => x.key = key)).length

/-- parse_datetime in src/modules/state.rs: RFC3339 parse (the conversion
to Utc does not change the instant). -/
def parse_datetime (value : String) : Option Int := parse_from_rfc3339 value

/-- Nanoseconds per day, for Duration::days. -/
def nanosPerDay : Int := 86400 * 1000000000

/-- The retain predicate of prune step 1: keep a record iff its last_seen
parses and is not older than the cutoff now - max_days. -/
def ageOk (now : Int) (maxDays : Nat) (item : StoredItem) : Bool :=
  match parse_datetime item.last_seen with
  | some dt => decide (now - (maxDays : Int) * nanosPerDay ≤ dt)
  | none => false

/-- The sort key of prune step 2: the parsed last_seen, unparseable
values (impossible after step 1) sorting as now. -/
def lastSeenKey (now : Int) (item : StoredItem) : Int :=
  (parse_datetime item.last_seen).getD now

/-- Model of StateStore::prune: drop records failing the age filter, then
if more than max_items remain, stable-sort ascending by last_seen and keep
the trailing max_items (split_off at len - max_items). -/
def prune (store : List StoredItem) (now : Int) (maxDays maxItems : Nat) :
    List StoredItem :=
  let kept := store.filter (ageOk now maxDays)
  if maxItems < kept.length then
    let sorted := isortBy (fun a b => lastSeenKey now a ≤ lastSeenKey now b) kept
    sorted.drop (kept.length - maxItems)
  else kept

/-! ## Concrete records used in counterexamples and witnesses -/

/-- A stored record with likes 5, updated 2024-01-01, published 2024-01-03
(its spec effective time is 2024-01-03, its code tie-break time 2024-01-01). -/
def itemTieA : StoredItem :=
  { key := "a", item_id := some "a", title := "A",
    link := "https://qiita.com/u/items/a", summary := none,
    published := some "2024-01-03T00:00:00Z",
    updated := some "2024-01-01T00:00:00Z", author_name := none,
    likes_count := 5, last_seen := "2024-01-04T00:00:00Z" }

/-- A stored record with likes 5, updated 2024-01-02, no published
timestamp (effective time 2024-01-02 on both readings). -/
def itemTieB : StoredItem :=
  { key := "b", item_id := some "b", title := "B",
    link := "https://qiita.com/u/items/b", summary := none,
    published := none,
    updated := some "2024-01-02T00:00:00Z", author_name := none,
    likes_count := 5, last_seen := "2024-01-04T00:00:00Z" }

/-- Two fully tied records (same likes, same timestamps) under different
keys. -/
def itemDupX : StoredItem :=
  { key := "x", item_id := some "x", title := "X",
    link := "https://qiita.com/u/items/x", summary := none,
    published := none,
    updated := some "2024-01-01T00:00:00Z", author_name := none,
    likes_count := 5, last_seen := "2024-01-04T00:00:00Z" }

/-- Companion of itemDupX with a different key. -/
def itemDupY : StoredItem :=
  { key := "y", item_id := some "y", title := "Y",
    link := "https://qiita.com/u/items/y", summary := none,
    published := none,
    updated := some "2024-01-01T00:00:00Z", author_name := none,
    likes_count := 5, last_seen := "2024-01-04T00:00:00Z" }

/-- Record observed at t1 = 2024-01-01. -/
def itemObs1 : StoredItem :=
  { key := "p1", item_id := some "p1", title := "P1",
    link := "https://qiita.com/u/items/p1", summary := none,
    published := none, updated := none, author_name := none,
    likes_count := 1, last_seen := "2024-01-01T00:00:00Z" }

/-- Record observed at t2 = 2024-01-02. -/
def itemObs2 : StoredItem :=
  { key := "p2", item_id := some "p2", title := "P2",
    link := "https://qiita.com/u/items/p2", summary := none,
    published := none, updated := none, author_name := none,
    likes_count := 2, last_seen := "2024-01-02T00:00:00Z" }

/-- Record observed at t3 = 2024-01-03. -/
def itemObs3 : StoredItem :=
  { key := "p3", item_id := some "p3", title := "P3",
    link := "https://qiita.com/u/items/p3", summary := none,
    published := none, updated := none, author_name := none,
    likes_count := 3, last_seen := "2024-01-03T00:00:00Z" }

/-- The instant 2024-01-04T00:00:00Z on the parser's epoch. -/
def pruneNow : Int := 63866361600000000000

/-- A feed candidate with an endpoint id. -/
def candItem : QiitaItem :=
  { item_id := some "abc123", title := "Cand",
    link := "https://qiita.com/alice/items/abc123", summary := some "s",
    published := some "2024-01-01T00:00:00Z",
    updated := some "2024-01-02T00:00:00Z", author_name := some "alice",
    likes_count := 12 }

/-- A feed candidate without an endpoint id (key falls back to the link). -/
def candNoId : QiitaItem :=
  { item_id := none, title := "NoId",
    link := "https://example.com/alice/posts/1", summary := none,
    published := none, updated := none, author_name := none,
    likes_count := 7 }

/-- Page sizes [2, 2, 1] (page 1 is index 1). -/
def pagesA : Nat → Nat
  | 1 => 2
  | 2 => 2
  | 3 => 1
  | _ => 0

/-- Page sizes constantly 2. -/
def pagesB : Nat → Nat := fun _ => 2

/-! ## Generic facts about stable insertion sort -/

theorem insertBy_perm {α : Type} (le : α → α → Bool) (x : α) (l : List α) :
    (insertBy le x l).Perm (x :: l) := by
  induction l with
  | nil => simp [insertBy]
  | cons y ys ih =>
      by_cases h : le x y = true
      · simp [insertBy, h]
      · simp only [insertBy, h]
        simp only [Bool.false_eq_true, if_false]
        exact (ih.cons y).trans (List.Perm.swap x y ys)

theorem isortBy_perm {α : Type} (le : α → α → Bool) (l : List α) :
    (isortBy le l).Perm l := by
  induction l with
  | nil => simp [isortBy]
  | cons x xs ih =>
      exact (insertBy_perm le x (isortBy le xs)).trans (ih.cons x)

theorem pairwise_insertBy {α : Type} {le : α → α → Bool}
    (htot : ∀ a b, le a b = true ∨ le b a = true)
    (htrans : ∀ a b c, le a b = true → le b c = true → le a c = true)
    (x : α) {l : List α} (h : l.Pairwise (fun a b => le a b = true)) :
    (insertBy le x l).Pairwise (fun a b => le a b = true) := by
  induction l with
  | nil => simp [insertBy]
  | cons y ys ih =>
      rcases List.pairwise_cons.mp h with ⟨hy, hys⟩
      by_cases hxy : le x y = true
      · simp only [insertBy, hxy, if_true]
        refine List.pairwise_cons.mpr ⟨?_, h⟩
        intro z hz
        rcases List.mem_cons.mp hz with rfl | hz
        · exact hxy
        · exact htrans x y z hxy (hy z hz)
      · simp only [insertBy, hxy]
        simp only [Bool.false_eq_true, if_false]
        refine List.pairwise_cons.mpr ⟨?_, ih hys⟩
        intro z hz
        have hz' := (insertBy_perm le x ys).mem_iff.mp hz
        rcases List.mem_cons.mp hz' with hzx | hz'
        · rcases htot x y with hxy' | hyx
          · exact absurd hxy' hxy
          · rw [hzx]; exact hyx
        · exact hy z hz'

theorem pairwise_isortBy {α : Type} {le : α → α → Bool}
    (htot : ∀ a b, le a b = true ∨ le b a = true)
    (htrans : ∀ a b c, le a b = true → le b c = true → le a c = true)
    (l : List α) :
    (isortBy le l).Pairwise (fun a b => le a b = true) := by
  induction l with
  | nil => simp [isortBy]
  | cons x xs ih => exact pairwise_insertBy htot htrans x ih

theorem eq_of_perm_of_pairwise {α : Type} {r : α → α → Prop} :
    ∀ {l₁ l₂ : List α}, l₁.Perm l₂ →
      (∀ a ∈ l₁, ∀ b ∈ l₁, r a b → r b a → a = b) →
      l₁.Pairwise r → l₂.Pairwise r → l₁ = l₂
  | [], l₂, p, _, _, _ => p.nil_eq
  | a :: t₁, l₂, p, anti, s₁, s₂ => by
      rcases List.pairwise_cons.mp s₁ with ⟨ha, ht₁⟩
      have hal₂ : a ∈ l₂ := p.mem_iff.mp (List.mem_cons_self a t₁)
      rcases l₂ with _ | ⟨b, t₂⟩
      · exact absurd hal₂ (List.not_mem_nil a)
      rcases List.pairwise_cons.mp s₂ with ⟨hb, ht₂⟩
      have hab : a = b := by
        rcases List.mem_cons.mp hal₂ with rfl | hat₂
        · rfl
        · have hbl₁ : b ∈ a :: t₁ := p.symm.mem_iff.mp (List.mem_cons_self b t₂)
          rcases List.mem_cons.mp hbl₁ with rfl | hbt₁
          · rfl
          · exact anti a (List.mem_cons_self a t₁) b (List.mem_cons_of_mem a hbt₁)
              (ha b hbt₁) (hb a hat₂)
      subst hab
      have pt : t₁.Perm t₂ := p.cons_inv
      have anti' : ∀ x ∈ t₁, ∀ y ∈ t₁, r x y → r y x → x = y := fun x hx y hy =>
        anti x (List.mem_cons_of_mem a hx) y (List.mem_cons_of_mem a hy)
      rw [eq_of_perm_of_pairwise pt anti' ht₁ ht₂]

/-! ## Order-theoretic facts about compare_items -/

theorem cmpNat_eq_iff {a b : Nat} : cmpNat a b = .eq ↔ a = b := by
  unfold cmpNat; split_ifs <;> simp_all <;> omega

theorem cmpNat_lt_iff {a b : Nat} : cmpNat a b = .lt ↔ a < b := by
  unfold cmpNat; split_ifs <;> simp_all <;> omega

theorem cmpNat_gt_iff {a b : Nat} : cmpNat a b = .gt ↔ b < a := by
  unfold cmpNat; split_ifs <;> simp_all <;> omega

theorem cmpInt_eq_iff {a b : Int} : cmpInt a b = .eq ↔ a = b := by
  unfold cmpInt; split_ifs <;> simp_all <;> omega

theorem cmpInt_lt_iff {a b : Int} : cmpInt a b = .lt ↔ a < b := by
  unfold cmpInt; split_ifs <;> simp_all <;> omega

theorem cmpInt_gt_iff {a b : Int} : cmpInt a b = .gt ↔ b < a := by
  unfold cmpInt; split_ifs <;> simp_all <;> omega

/-- Order on optional timestamps corresponding to optCmp cmpInt (None least). -/
def optLeP : Option Int → Option Int → Prop
  | none, _ => True
  | some _, none => False
  | some a, some b => a ≤ b

instance : ∀ x y : Option Int, Decidable (optLeP x y)
  | none, _ => isTrue trivial
  | some _, none => isFalse id
  | some a, some b => inferInstanceAs (Decidable (a ≤ b))

theorem optCmp_eq_iff {x y : Option Int} : optCmp cmpInt x y = .eq ↔ x = y := by
  rcases x with _ | a <;> rcases y with _ | b
  · simp [optCmp]
  · simp [optCmp]
  · simp [optCmp]
  · simp [optCmp, cmpInt_eq_iff]

theorem optCmp_gt_iff {x y : Option Int} : optCmp cmpInt x y = .gt ↔ ¬ optLeP x y := by
  rcases x with _ | a <;> rcases y with _ | b
  · simp [optCmp, optLeP]
  · simp [optCmp, optLeP]
  · simp [optCmp, optLeP]
  · simp only [optCmp, optLeP, cmpInt_gt_iff]; omega

theorem optLeP_total (x y : Option Int) : optLeP x y ∨ optLeP y x := by
  rcases x with _ | a <;> rcases y with _ | b
  · left; trivial
  · left; trivial
  · right; trivial
  · simp only [optLeP]; omega

theorem optLeP_trans {x y z : Option Int} (h1 : optLeP x y) (h2 : optLeP y z) :
    optLeP x z := by
  rcases x with _ | a <;> rcases y with _ | b <;> rcases z with _ | c <;>
    first
      | trivial
      | exact h1.elim
      | exact h2.elim
      | (simp only [optLeP] at h1 h2 ⊢; omega)

/-- The proposition that a precedes-or-ties b in Selector order. -/
def itemsLeP (a b : StoredItem) : Prop :=
  b.likes_count < a.likes_count ∨
    (a.likes_count = b.likes_count ∧ optLeP (published_time b) (published_time a))

theorem compare_items_def (a b : StoredItem) :
    compare_items a b =
      (if cmpNat b.likes_count a.likes_count ≠ .eq then cmpNat b.likes_count a.likes_count
       else optCmp cmpInt (published_time b) (published_time a)) := rfl

theorem compare_items_eq_iff {a b : StoredItem} :
    compare_items a b = .eq ↔
      a.likes_count = b.likes_count ∧ published_time a = published_time b := by
  rw [compare_items_def]
  rcases h : cmpNat b.likes_count a.likes_count with _ | _ | _
  · have hlt := cmpNat_lt_iff.mp h
    rw [if_pos (by decide : (Ordering.lt ≠ Ordering.eq))]
    constructor
    · intro hfalse; exact absurd hfalse (by decide)
    · intro ⟨h1, _⟩; exfalso; omega
  · have hEq := cmpNat_eq_iff.mp h
    rw [if_neg (by decide : ¬ (Ordering.eq ≠ Ordering.eq)), optCmp_eq_iff]
    constructor
    · intro h2; exact ⟨hEq.symm, h2.symm⟩
    · intro ⟨_, h2⟩; exact h2.symm
  · have hgt := cmpNat_gt_iff.mp h
    rw [if_pos (by decide : (Ordering.gt ≠ Ordering.eq))]
    constructor
    · intro hfalse; exact absurd hfalse (by decide)
    · intro ⟨h1, _⟩; exfalso; omega

theorem bneOrdering_iff {x y : Ordering} : (x != y) = true ↔ x ≠ y := by
  cases x <;> cases y <;> decide

theorem itemsLe_iff {a b : StoredItem} : itemsLe a b = true ↔ itemsLeP a b := by
  simp only [itemsLe]
  rw [bneOrdering_iff, compare_items_def]
  unfold itemsLeP
  rcases h : cmpNat b.likes_count a.likes_count with _ | _ | _
  · have hlt := cmpNat_lt_iff.mp h
    rw [if_pos (by decide : (Ordering.lt ≠ Ordering.eq))]
    constructor
    · intro _; left; exact hlt
    · intro _; decide
  · have hEq := cmpNat_eq_iff.mp h
    rw [if_neg (by decide : ¬ (Ordering.eq ≠ Ordering.eq))]
    constructor
    · intro h2
      right
      exact ⟨hEq.symm, not_not.mp ((not_congr optCmp_gt_iff).mp h2)⟩
    · intro h2
      rcases h2 with h2 | ⟨_, h2⟩
      · exfalso; omega
      · exact fun hgt => (optCmp_gt_iff.mp hgt) h2
  · have hgt := cmpNat_gt_iff.mp h
    rw [if_pos (by decide : (Ordering.gt ≠ Ordering.eq))]
    constructor
    · intro hfalse; exact absurd rfl hfalse
    · intro h2
      exfalso
      rcases h2 with h2 | ⟨h2, _⟩ <;> omega

theorem itemsLe_total (a b : StoredItem) : itemsLe a b = true ∨ itemsLe b a = true := by
  rw [itemsLe_iff, itemsLe_iff]
  unfold itemsLeP
  rcases Nat.lt_trichotomy a.likes_count b.likes_count with h | h | h
  · right; left; exact h
  · rcases optLeP_total (published_time b) (published_time a) with h2 | h2
    · left; right; exact ⟨h, h2⟩
    · right; right; exact ⟨h.symm, h2⟩
  · left; left; exact h

theorem itemsLe_trans {a b c : StoredItem} (h1 : itemsLe a b = true)
    (h2 : itemsLe b c = true) : itemsLe a c = true := by
  rw [itemsLe_iff] at h1 h2 ⊢
  unfold itemsLeP at h1 h2 ⊢
  rcases h1 with h1 | ⟨h1, h1t⟩
  · rcases h2 with h2 | ⟨h2, _⟩
    · left; omega
    · left; omega
  · rcases h2 with h2 | ⟨h2, h2t⟩
    · left; omega
    · right; exact ⟨by omega, optLeP_trans h2t h1t⟩

theorem compare_items_eq_of_le_le {a b : StoredItem} (h1 : itemsLe a b = true)
    (h2 : itemsLe b a = true) : compare_items a b = .eq := by
  rw [itemsLe_iff] at h1 h2
  rw [compare_items_eq_iff]
  unfold itemsLeP at h1 h2
  have hl : a.likes_count = b.likes_count := by
    rcases h1 with h1 | ⟨h1, _⟩ <;> rcases h2 with h2 | ⟨h2, _⟩ <;> omega
  refine ⟨hl, ?_⟩
  have t1 : optLeP (published_time b) (published_time a) := by
    rcases h1 with h1 | ⟨_, h1t⟩
    · omega
    · exact h1t
  have t2 : optLeP (published_time a) (published_time b) := by
    rcases h2 with h2 | ⟨_, h2t⟩
    · omega
    · exact h2t
  rcases hx : published_time a with _ | ta <;> rcases hy : published_time b with _ | tb
  · rfl
  · rw [hx, hy] at t1; exact t1.elim
  · rw [hx, hy] at t2; exact t2.elim
  · rw [hx, hy] at t1 t2
    simp only [optLeP] at t1 t2
    exact congrArg some (by omega)

/-! ## Claim C1: Selector tie-break -/

/-- Claim C1 counterexample: two stored records with equal likes whose
spec effective times (select_updated_time, the later of updated and
published) order itemTieA strictly after itemTieB in descending-time
order, yet the Selector emits itemTieB first, because compare_items
tie-breaks on published_time (updated preferred, published only as a
fallback), not on the later of the two. -/
theorem selector_tiebreak_counterexample :
    itemTieA.likes_count = itemTieB.likes_count ∧
    select_updated_time itemTieA = some 63866275200000000000 ∧
    select_updated_time itemTieB = some 63866188800000000000 ∧
    (63866188800000000000 : Int) < 63866275200000000000 ∧
    selectItems [itemTieA, itemTieB] 0 10 = [itemTieB, itemTieA] := by
  refine ⟨by decide, by decide, by decide, by decide, by decide⟩

/-- Claim C1 (amended): for stored records with equal likes counts the
Selector tie-breaks by published_time descending, where published_time is
the parsed updated timestamp, falling back to the parsed published
timestamp (not the later of the two); a record whose timestamps are
absent or unparseable has published_time none, sorts as earliest
possible, and loses every tie against a record with a valid timestamp. -/
theorem selector_tiebreak_amended (a b : StoredItem)
    (h : a.likes_count = b.likes_count) :
    (∀ ta tb : Int, published_time a = some ta → published_time b = some tb →
        compare_items a b = cmpInt tb ta) ∧
    (∀ ta : Int, published_time a = some ta → published_time b = none →
        compare_items a b = .lt) ∧
    (∀ tb : Int, published_time a = none → published_time b = some tb →
        compare_items a b = .gt) ∧
    (published_time a = none → published_time b = none →
        compare_items a b = .eq) := by
  have hL : cmpNat b.likes_count a.likes_count = .eq := cmpNat_eq_iff.mpr h.symm
  have hIf : ¬ (Ordering.eq ≠ Ordering.eq) := by decide
  refine ⟨?_, ?_, ?_, ?_⟩
  · intro ta tb ha hb
    rw [compare_items_def, hL, if_neg hIf, ha, hb]
    rfl
  · intro ta ha hb
    rw [compare_items_def, hL, if_neg hIf, ha, hb]
    rfl
  · intro tb ha hb
    rw [compare_items_def, hL, if_neg hIf, ha, hb]
    rfl
  · intro ha hb
    rw [compare_items_def, hL, if_neg hIf, ha, hb]
    rfl

/-- Witness for the amended C1 theorem at the concrete tied records. -/
theorem selector_tiebreak_amended_witness :
    compare_items itemTieB itemTieA = .lt := by
  have h := (selector_tiebreak_amended itemTieB itemTieA (by decide)).1
  have h2 := h 63866188800000000000 63866102400000000000 (by decide) (by decide)
  rw [h2]; decide

/-! ## Claim C2: Selector determinism -/

/-- Claim C2 counterexample: two snapshots holding the identical
key-to-record mapping (they are permutations of each other, as a HashMap
yields its values in arbitrary order) on which the Selector produces
different output sequences, because two distinct records tie completely
and the stable sort keeps them in snapshot order. -/
theorem selector_determinism_counterexample :
    ([itemDupX, itemDupY].Perm [itemDupY, itemDupX]) ∧
    selectItems [itemDupX, itemDupY] 0 2 ≠ selectItems [itemDupY, itemDupX] 0 2 :=
  ⟨List.Perm.swap itemDupY itemDupX [], by decide⟩

/-- Claim C2 (amended): the Selector is deterministic over an identical
store snapshot up to the order of completely tied records; in particular,
whenever no two distinct records of the snapshot compare equal under
compare_items (equal likes and equal published_time), any two
presentations of the same key-to-record mapping produce the identical
output sequence in the identical order. -/
theorem selector_determinism_amended (s1 s2 : List StoredItem)
    (minLikes maxEntries : Nat) (hperm : s1.Perm s2)
    (hanti : ∀ a ∈ s1, ∀ b ∈ s1, compare_items a b = .eq → a = b) :
    selectItems s1 minLikes maxEntries = selectItems s2 minLikes maxEntries := by
  have hTot : ∀ a b : StoredItem, itemsLe a b = true ∨ itemsLe b a = true :=
    itemsLe_total
  have hTrans : ∀ a b c : StoredItem,
      itemsLe a b = true → itemsLe b c = true → itemsLe a c = true :=
    fun a b c => itemsLe_trans
  have key : isortBy itemsLe (s1.filter (fun item => minLikes ≤ item.likes_count))
      = isortBy itemsLe (s2.filter (fun item => minLikes ≤ item.likes_count)) := by
    apply eq_of_perm_of_pairwise (r := fun a b => itemsLe a b = true)
    · exact (isortBy_perm _ _).trans ((hperm.filter _).trans (isortBy_perm _ _).symm)
    · intro a ha b hb h1 h2
      have ha' : a ∈ s1 :=
        List.mem_of_mem_filter ((isortBy_perm _ _).mem_iff.mp ha)
      have hb' : b ∈ s1 :=
        List.mem_of_mem_filter ((isortBy_perm _ _).mem_iff.mp hb)
      exact hanti a ha' b hb' (compare_items_eq_of_le_le h1 h2)
    · exact pairwise_isortBy hTot hTrans _
    · exact pairwise_isortBy hTot hTrans _
  simp only [selectItems]
  rw [key]

/-- Witness for the amended C2 theorem at two permuted snapshots whose
records do not tie completely. -/
theorem selector_determinism_amended_witness :
    selectItems [itemTieA, itemTieB] 0 10 = selectItems [itemTieB, itemTieA] 0 10 :=
  selector_determinism_amended [itemTieA, itemTieB] [itemTieB, itemTieA] 0 10
    (List.Perm.swap itemTieB itemTieA []) (by decide)

/-! ## Claim C9: identity-hint derivation -/

/-- Claim C9 counterexample: on a link whose path continues after the id
segment, extract_item_id returns the entire remainder after "/items/",
not the single path component the claim describes. -/
theorem extract_item_id_counterexample :
    extract_item_id "https://host/alice/items/abc/def" = some "abc/def" ∧
    extract_item_id_spec "https://host/alice/items/abc/def" = some "abc" ∧
    (some "abc/def" : Option String) ≠ some "abc" := by
  refine ⟨by decide, by decide, by decide⟩

/-- Claim C9 (amended): if the link contains the fixed marker "/items/",
the derived identity hint is the entire remainder of the link after the
first marker occurrence, with any trailing query or fragment stripped
(this equals the following path component only when no further path
separator follows); if the marker is absent, or nothing remains after
stripping, no identity hint is derived and this is not an error. -/
theorem extract_item_id_amended :
    (∀ link : String, findSublistIdx "/items/".toList link.toList = none →
        extract_item_id link = none) ∧
    (∀ (link : String) (i : Nat),
        findSublistIdx "/items/".toList link.toList = some i →
        extract_item_id link =
          (let idPart := truncAt '#' (truncAt '?' (link.toList.drop (i + 7)))
           if idPart.isEmpty then none else some (String.mk idPart))) ∧
    extract_item_id "https://host/alice/items/abc123?ref=x" = some "abc123" ∧
    extract_item_id "https://host/alice/posts/abc" = none ∧
    extract_item_id "https://host/a/items/" = none := by
  refine ⟨?_, ?_, by decide, by decide, by decide⟩
  · intro link hnone
    simp only [extract_item_id, hnone]
  · intro link i hsome
    simp only [extract_item_id, hsome]
    rfl

/-- Witness for the amended C9 theorem on a marker-free link. -/
theorem extract_item_id_amended_witness :
    extract_item_id "https://example.com/u/posts/9" = none :=
  extract_item_id_amended.1 "https://example.com/u/posts/9" (by decide)

/-! ## Fetch-loop step lemmas -/

theorem likesPageLoop_succ (att : Nat → LikesAttempt) (r attempt : Nat) :
    likesPageLoop att (r + 1) attempt =
      likesAttemptResult (att attempt) attempt
        (some (likesPageLoop att r (attempt + 1))) := rfl

theorem likesPageLoop_zero (att : Nat → LikesAttempt) (attempt : Nat) :
    likesPageLoop att 0 attempt =
      likesAttemptResult (att attempt) attempt none := rfl

theorem likesAttemptResult_response (status : Nat) (items : Option Nat)
    (attempt : Nat) (retry : Option (Except AppError Nat × Nat)) :
    likesAttemptResult (.response status items) attempt retry =
      (if status = 401 then (.error (AppError.network .likesUnauthorized), attempt)
       else if isSuccess status then
         match items with
         | some n => (.ok n, attempt)
         | none => (.error (AppError.network .likesJsonParseFailed), attempt)
       else
         match retry, should_retry status with
         | some k, true => k
         | _, _ =>
             (.error (AppError.network (.likesFetchFailedStatus status attempt)),
              attempt)) := rfl

theorem feedLoop_succ (att : Nat → FeedAttempt) (r attempt : Nat) :
    feedLoop att (r + 1) attempt =
      feedAttemptResult (att attempt) attempt
        (some (feedLoop att r (attempt + 1))) := rfl

theorem feedAttemptResult_response (status : Nat) (body : Option FeedDoc)
    (attempt : Nat) (retry : Option (Except AppError (List QiitaItem) × Nat)) :
    feedAttemptResult (.response status body) attempt retry =
      (if isSuccess status then
         match body with
         | none => (.error (AppError.network .feedReadFailed), attempt)
         | some doc => (parse_feed_xml doc, attempt)
       else
         match retry, should_retry status with
         | some k, true => k
         | _, _ =>
             (.error (AppError.network (.feedFetchFailedStatus status attempt)),
              attempt)) := rfl

theorem should_retry_imp {s : Nat} (h : should_retry s = true) :
    isSuccess s = false ∧ s ≠ 401 := by
  have hs : (500 ≤ s ∧ s ≤ 599) ∨ s = 429 := by
    unfold should_retry is_server_error at h
    simp only [Bool.or_eq_true, Bool.and_eq_true, decide_eq_true_eq, beq_iff_eq] at h
    exact h
  constructor
  · cases hval : isSuccess s with
    | false => rfl
    | true =>
        exfalso
        unfold isSuccess at hval
        simp only [Bool.and_eq_true, decide_eq_true_eq] at hval
        rcases hs with ⟨h1, h2⟩ | h1 <;> omega
  · rcases hs with ⟨h1, h2⟩ | h1 <;> omega

/-! ## Claim C3: retry policy for non-2xx statuses -/

/-- Claim C3 counterexample: a fetch whose every attempt returns 404 (a
non-2xx status that is neither 401 nor 5xx nor 429) is not retried up to
3 attempts as the claim states; the fetch fails on the very first attempt
with a Network error. -/
theorem retry_non2xx_counterexample :
    fetch_likes_page (fun _ => .response 404 none) =
      (.error (AppError.network (.likesFetchFailedStatus 404 1)), 1) ∧
    (1 : Nat) ≠ 3 := by
  exact ⟨rfl, by decide⟩

/-- Claim C3 (amended): only 5xx and 429 are retried.  Any other non-2xx
status that is not 401 makes the fetch return a Network error immediately
on the first attempt with no retry; 5xx and 429 are retried up to the
fixed maximum of 3 attempts before a Network error; 401 short-circuits
with the credential message. -/
theorem retry_non2xx_amended :
    (∀ (att : Nat → LikesAttempt) (status : Nat) (items : Option Nat),
        att 1 = .response status items →
        isSuccess status = false → status ≠ 401 → should_retry status = false →
        fetch_likes_page att =
          (.error (AppError.network (.likesFetchFailedStatus status 1)), 1)) ∧
    (∀ (att : Nat → LikesAttempt) (status : Nat) (items : Option Nat),
        (∀ n, att n = .response status items) → should_retry status = true →
        fetch_likes_page att =
          (.error (AppError.network (.likesFetchFailedStatus status 3)), 3)) ∧
    (∀ (att : Nat → LikesAttempt) (items : Option Nat),
        att 1 = .response 401 items →
        fetch_likes_page att = (.error (AppError.network .likesUnauthorized), 1)) := by
  refine ⟨?_, ?_, ?_⟩
  · intro att status items h1 hsucc h401 hretry
    show likesPageLoop att (1 + 1) 1 = _
    rw [likesPageLoop_succ, h1, likesAttemptResult_response, if_neg h401,
        if_neg (ne_true_of_eq_false hsucc), hretry]
  · intro att status items hall hsr
    obtain ⟨hsucc, h401⟩ := should_retry_imp hsr
    show likesPageLoop att (1 + 1) 1 = _
    rw [likesPageLoop_succ, hall 1, likesAttemptResult_response, if_neg h401,
        if_neg (ne_true_of_eq_false hsucc), hsr]
    show likesPageLoop att (0 + 1) 2 = _
    rw [likesPageLoop_succ, hall 2, likesAttemptResult_response, if_neg h401,
        if_neg (ne_true_of_eq_false hsucc), hsr]
    show likesPageLoop att 0 3 = _
    rw [likesPageLoop_zero, hall 3, likesAttemptResult_response, if_neg h401,
        if_neg (ne_true_of_eq_false hsucc), hsr]
  · intro att items h1
    show likesPageLoop att (1 + 1) 1 = _
    rw [likesPageLoop_succ, h1, likesAttemptResult_response, if_pos rfl]

/-- Witness for the amended C3 theorem: 403 fails on the first attempt,
503 is retried to 3 attempts, 401 short-circuits. -/
theorem retry_non2xx_amended_witness :
    fetch_likes_page (fun _ => .response 403 none) =
      (.error (AppError.network (.likesFetchFailedStatus 403 1)), 1) ∧
    fetch_likes_page (fun _ => .response 503 none) =
      (.error (AppError.network (.likesFetchFailedStatus 503 3)), 3) ∧
    fetch_likes_page (fun _ => .response 429 none) =
      (.error (AppError.network (.likesFetchFailedStatus 429 3)), 3) :=
  ⟨retry_non2xx_amended.1 (fun _ => .response 403 none) 403 none rfl (by decide)
      (by decide) (by decide),
   retry_non2xx_amended.2.1 (fun _ => .response 503 none) 503 none (fun _ => rfl)
      (by decide),
   retry_non2xx_amended.2.1 (fun _ => .response 429 none) 429 none (fun _ => rfl)
      (by decide)⟩

/-! ## Claim C4: category of feed-document errors -/

/-- Claim C4 counterexample: an unparseable feed document (and a parsed
document lacking the feed root) surfaces an error of the Network
category, exit status 3, not the Data/Feed category (exit status 4) that
output-formatting failures carry, contradicting the claim that both share
one category. -/
theorem feed_parse_error_category_counterexample :
    parse_feed_xml .unparseable = .error (AppError.network .feedXmlParseFailed) ∧
    parse_feed_xml (.parsed false []) = .error (AppError.network .feedMissingRoot) ∧
    (AppError.network .feedXmlParseFailed).kind ≠ outputFormatErrorKind ∧
    (AppError.network .feedXmlParseFailed).exit_code = 3 ∧
    (⟨outputFormatErrorKind, .feedXmlParseFailed⟩ : AppError).exit_code = 4 := by
  refine ⟨rfl, rfl, by decide, rfl, rfl⟩

/-- Claim C4 (amended): when the feed document cannot be parsed as
structured markup, or parses but lacks a root feed container, the error
surfaced to the caller belongs to the Network category (exit status 3),
which is distinct from the Feed/Data category (exit status 4) used for
output-formatting failures. -/
theorem feed_parse_error_category_amended :
    parse_feed_xml .unparseable = .error (AppError.network .feedXmlParseFailed) ∧
    (∀ entries, parse_feed_xml (.parsed false entries) =
        .error (AppError.network .feedMissingRoot)) ∧
    (∀ m : Msg, (AppError.network m).exit_code = 3) ∧
    (∀ m : Msg, (⟨outputFormatErrorKind, m⟩ : AppError).exit_code = 4) ∧
    (∀ m m' : Msg,
        (AppError.network m).exit_code ≠ (⟨outputFormatErrorKind, m'⟩ : AppError).exit_code) := by
  refine ⟨rfl, fun _ => rfl, fun _ => rfl, fun _ => rfl,
    fun _ _ => show (3 : Int) ≠ 4 by decide⟩

/-- Witness for the amended C4 theorem at the empty entry list. -/
theorem feed_parse_error_category_amended_witness :
    parse_feed_xml (.parsed false []) = .error (AppError.network .feedMissingRoot) :=
  feed_parse_error_category_amended.2.1 []

/-! ## Claim C5: handling of HTTP 401 -/

/-- Claim C5 counterexample: the feed fetch answered 401 does fail
immediately with a Network error and zero retries, but its message is the
generic fetch-failure diagnostic, which does not instruct the user to
configure the API credential; the credential-instruction message exists
only on the likes-page fetch, contradicting the claim that it holds for
every fetch alike. -/
theorem unauthorized_handling_counterexample :
    fetch_feed (fun _ => .response 401 none) =
      (.error (AppError.network (.feedFetchFailedStatus 401 1)), 1) ∧
    Msg.instructsCredentialConfig (.feedFetchFailedStatus 401 1) = false ∧
    Msg.instructsCredentialConfig .likesUnauthorized = true := by
  refine ⟨rfl, rfl, rfl⟩

/-- Claim C5 (amended): every fetch answered 401 returns a fatal Network
error immediately with zero retries (one attempt); on the likes-page
fetch the message instructs the user to configure the API credential,
while on the feed fetch the message is the generic fetch failure without
that instruction. -/
theorem unauthorized_handling_amended :
    (∀ (att : Nat → LikesAttempt) (items : Option Nat),
        att 1 = .response 401 items →
        fetch_likes_page att = (.error (AppError.network .likesUnauthorized), 1) ∧
        Msg.instructsCredentialConfig .likesUnauthorized = true) ∧
    (∀ (att : Nat → FeedAttempt) (body : Option FeedDoc),
        att 1 = .response 401 body →
        fetch_feed att =
          (.error (AppError.network (.feedFetchFailedStatus 401 1)), 1) ∧
        Msg.instructsCredentialConfig (.feedFetchFailedStatus 401 1) = false) := by
  constructor
  · intro att items h1
    refine ⟨?_, rfl⟩
    show likesPageLoop att (1 + 1) 1 = _
    rw [likesPageLoop_succ, h1, likesAttemptResult_response, if_pos rfl]
  · intro att body h1
    refine ⟨?_, rfl⟩
    show feedLoop att (1 + 1) 1 = _
    rw [feedLoop_succ, h1, feedAttemptResult_response,
        if_neg (ne_true_of_eq_false (by decide : isSuccess 401 = false)),
        (by decide : should_retry 401 = false)]

/-- Witness for the amended C5 theorem at constant-401 attempt sequences. -/
theorem unauthorized_handling_amended_witness :
    fetch_likes_page (fun _ => .response 401 none) =
      (.error (AppError.network .likesUnauthorized), 1) ∧
    fetch_feed (fun _ => .response 401 none) =
      (.error (AppError.network (.feedFetchFailedStatus 401 1)), 1) :=
  ⟨(unauthorized_handling_amended.1 (fun _ => .response 401 none) none rfl).1,
   (unauthorized_handling_amended.2 (fun _ => .response 401 none) none rfl).1⟩

/-! ## Pagination loop lemmas -/

theorem likesCountLoop_zero (fp : Nat → Except AppError Nat) (perPage page total : Nat) :
    likesCountLoop fp perPage 0 page total = (.ok total, page - 1, true) := rfl

theorem likesCountLoop_succ_ok (fp : Nat → Except AppError Nat)
    (perPage r page total len : Nat) (h : fp page = .ok len) :
    likesCountLoop fp perPage (r + 1) page total =
      (if len < perPage then (.ok (u32SatAdd total (len % 4294967296)), page, false)
       else likesCountLoop fp perPage r (page + 1)
         (u32SatAdd total (len % 4294967296))) := by
  simp only [likesCountLoop]
  rw [h]

theorem satSumUpTo_succ (sizes : Nat → Nat) (k : Nat) :
    satSumUpTo sizes (k + 1) =
      u32SatAdd (satSumUpTo sizes k) (sizes (k + 1) % 4294967296) := rfl

theorem likesCountLoop_exhaust (fp : Nat → Except AppError Nat) (sizes : Nat → Nat)
    (perPage : Nat) (hfp : ∀ j, fp j = .ok (sizes j)) :
    ∀ (r page : Nat), 1 ≤ page →
      (∀ j, page ≤ j → j < page + r → perPage ≤ sizes j) →
      likesCountLoop fp perPage r page (satSumUpTo sizes (page - 1)) =
        (.ok (satSumUpTo sizes (page - 1 + r)), page + r - 1, true) := by
  intro r
  induction r with
  | zero =>
      intro page hp _
      rw [likesCountLoop_zero]
      simp only [Nat.add_zero]
  | succ r ih =>
      intro page hp hall
      have hlen : perPage ≤ sizes page := hall page le_rfl (by omega)
      rw [likesCountLoop_succ_ok fp perPage r page _ (sizes page) (hfp page),
          if_neg (by omega : ¬ sizes page < perPage)]
      have hps : page - 1 + 1 = page := by omega
      have e : u32SatAdd (satSumUpTo sizes (page - 1)) (sizes page % 4294967296)
          = satSumUpTo sizes (page + 1 - 1) := by
        have h2 : page + 1 - 1 = page - 1 + 1 := by omega
        rw [h2, satSumUpTo_succ, hps]
      rw [e, ih (page + 1) (by omega) (fun j h1 h2 => hall j (by omega) (by omega))]
      have e1 : page + 1 - 1 + r = page - 1 + (r + 1) := by omega
      have e2 : page + 1 + r - 1 = page + (r + 1) - 1 := by omega
      rw [e1, e2]

theorem likesCountLoop_short (fp : Nat → Except AppError Nat) (sizes : Nat → Nat)
    (perPage : Nat) (hfp : ∀ j, fp j = .ok (sizes j)) :
    ∀ (r page k : Nat), 1 ≤ page → page ≤ k → k < page + r → sizes k < perPage →
      (∀ j, page ≤ j → j < k → perPage ≤ sizes j) →
      likesCountLoop fp perPage r page (satSumUpTo sizes (page - 1)) =
        (.ok (satSumUpTo sizes k), k, false) := by
  intro r
  induction r with
  | zero =>
      intro page k hp hpk hkr
      exact absurd hkr (by omega)
  | succ r ih =>
      intro page k hp hpk hkr hshort hall
      rw [likesCountLoop_succ_ok fp perPage r page _ (sizes page) (hfp page)]
      have hps : page - 1 + 1 = page := by omega
      by_cases hpage : page = k
      · subst hpage
        rw [if_pos hshort]
        have e : u32SatAdd (satSumUpTo sizes (page - 1)) (sizes page % 4294967296)
            = satSumUpTo sizes page := by
          conv_rhs => rw [← hps]
          rw [satSumUpTo_succ, hps]
        rw [e]
      · have hlt : page < k := by omega
        rw [if_neg (by have := hall page le_rfl hlt; omega : ¬ sizes page < perPage)]
        have e : u32SatAdd (satSumUpTo sizes (page - 1)) (sizes page % 4294967296)
            = satSumUpTo sizes (page + 1 - 1) := by
          have h2 : page + 1 - 1 = page - 1 + 1 := by omega
          rw [h2, satSumUpTo_succ, hps]
        rw [e]
        exact ih (page + 1) k (by omega) (by omega) (by omega) hshort
          (fun j h1 h2 => hall j (by omega) h2)

/-! ## Claim C6: pagination aggregation -/

/-- Claim C6 (confirmed): with every page fetch succeeding, per_page >= 1
and max_pages >= 1, the Pagination Aggregator fetches pages 1, 2, ... in
order and returns the saturating sum of the page sizes, returning
immediately at the first page shorter than per_page (k fetches when page k
is the first short one); when no short page occurs within max_pages it
performs exactly max_pages fetches and returns the accumulated total with
the approximation diagnostic; in particular per_page=2 with pages
[2, 2, 1] yields 5 after 3 calls, and pages of constant size 2 with
max_pages=3 yield 6 after 3 calls with the diagnostic. -/
theorem pagination_spec (fp : Nat → Except AppError Nat) (sizes : Nat → Nat)
    (perPage maxPages k : Nat) (hfp : ∀ j, fp j = .ok (sizes j))
    (hpp : 1 ≤ perPage) (hmp : 1 ≤ maxPages) :
    (1 ≤ k → k ≤ maxPages → sizes k < perPage →
        (∀ j, 1 ≤ j → j < k → perPage ≤ sizes j) →
        fetch_likes_count fp perPage maxPages = (.ok (satSumUpTo sizes k), k, false)) ∧
    ((∀ j, 1 ≤ j → j ≤ maxPages → perPage ≤ sizes j) →
        fetch_likes_count fp perPage maxPages =
          (.ok (satSumUpTo sizes maxPages), maxPages, true)) ∧
    fetch_likes_count (fun j => .ok (pagesA j)) 2 5 = (.ok 5, 3, false) ∧
    fetch_likes_count (fun j => .ok (pagesB j)) 2 3 = (.ok 6, 3, true) := by
  refine ⟨?_, ?_, rfl, rfl⟩
  · intro hk1 hk2 hshort hall
    show likesCountLoop fp perPage maxPages 1 (satSumUpTo sizes (1 - 1)) = _
    exact likesCountLoop_short fp sizes perPage hfp maxPages 1 k le_rfl hk1
      (by omega) hshort (fun j h1 h2 => hall j h1 h2)
  · intro hall
    show likesCountLoop fp perPage maxPages 1 (satSumUpTo sizes (1 - 1)) = _
    rw [likesCountLoop_exhaust fp sizes perPage hfp maxPages 1 le_rfl
        (fun j h1 h2 => hall j h1 (by omega))]
    have e1 : 1 - 1 + maxPages = maxPages := by omega
    have e2 : 1 + maxPages - 1 = maxPages := by omega
    rw [e1, e2]

/-- Witness for the C6 theorem at the two concrete page sequences. -/
theorem pagination_spec_witness :
    fetch_likes_count (fun j => .ok (pagesA j)) 2 5 =
      (.ok (satSumUpTo pagesA 3), 3, false) ∧
    fetch_likes_count (fun j => .ok (pagesB j)) 2 3 =
      (.ok (satSumUpTo pagesB 3), 3, true) :=
  ⟨(pagination_spec (fun j => .ok (pagesA j)) pagesA 2 5 3 (fun _ => rfl)
      (by decide) (by decide)).1 (by decide) (by decide) (by decide)
      (fun j h1 h2 => by interval_cases j <;> decide),
   (pagination_spec (fun j => .ok (pagesB j)) pagesB 2 3 1 (fun _ => rfl)
      (by decide) (by decide)).2.1 (fun _ _ _ => le_rfl)⟩

/-! ## Prune lemmas -/

theorem ageOk_spec {now : Int} {maxDays : Nat} {r : StoredItem}
    (h : ageOk now maxDays r = true) :
    ∃ t, parse_datetime r.last_seen = some t ∧
      now - (maxDays : Int) * nanosPerDay ≤ t := by
  unfold ageOk at h
  rcases hp : parse_datetime r.last_seen with _ | t
  · rw [hp] at h; cases h
  · rw [hp] at h; exact ⟨t, rfl, of_decide_eq_true h⟩

theorem prune_cases (store : List StoredItem) (now : Int) (maxDays maxItems : Nat) :
    (¬ maxItems < (store.filter (ageOk now maxDays)).length ∧
        prune store now maxDays maxItems = store.filter (ageOk now maxDays)) ∨
    (maxItems < (store.filter (ageOk now maxDays)).length ∧
        prune store now maxDays maxItems =
          (isortBy (fun a b => lastSeenKey now a ≤ lastSeenKey now b)
            (store.filter (ageOk now maxDays))).drop
            ((store.filter (ageOk now maxDays)).length - maxItems)) := by
  by_cases h : maxItems < (store.filter (ageOk now maxDays)).length
  · right; exact ⟨h, by simp only [prune]; rw [if_pos h]⟩
  · left; exact ⟨h, by simp only [prune]; rw [if_neg h]⟩

/-! ## Claim C7: prune by age then capacity -/

/-- Claim C7 (confirmed): prune first removes every stored record whose
last_seen is unparseable or older than now - max_days (every surviving
record parses to an instant no older than the cutoff); then, if more than
max_items remain, it keeps exactly max_items of them, namely records with
the most recent last_seen (the age-filter survivors split into the kept
records and dropped ones whose timestamps are all no later than every
kept one, ordering by last_seen ascending with unparseable values as
now); in particular with max_items = 2 and three records observed at
t1 < t2 < t3, exactly the records observed at t2 and t3 remain. -/
theorem prune_spec (store : List StoredItem) (now : Int) (maxDays maxItems : Nat) :
    (∀ r ∈ prune store now maxDays maxItems,
        ∃ t, parse_datetime r.last_seen = some t ∧
          now - (maxDays : Int) * nanosPerDay ≤ t) ∧
    (prune store now maxDays maxItems).length =
      min (store.filter (ageOk now maxDays)).length maxItems ∧
    (∃ dropped, (store.filter (ageOk now maxDays)).Perm
        (dropped ++ prune store now maxDays maxItems) ∧
      ∀ b ∈ dropped, ∀ a ∈ prune store now maxDays maxItems,
        lastSeenKey now b ≤ lastSeenKey now a) ∧
    prune [itemObs1, itemObs2, itemObs3] pruneNow 30 2 = [itemObs2, itemObs3] := by
  have hle_total : ∀ a b : StoredItem,
      decide (lastSeenKey now a ≤ lastSeenKey now b) = true ∨
      decide (lastSeenKey now b ≤ lastSeenKey now a) = true := by
    intro a b
    rcases Int.le_total (lastSeenKey now a) (lastSeenKey now b) with h | h
    · exact Or.inl (decide_eq_true h)
    · exact Or.inr (decide_eq_true h)
  have hle_trans : ∀ a b c : StoredItem,
      decide (lastSeenKey now a ≤ lastSeenKey now b) = true →
      decide (lastSeenKey now b ≤ lastSeenKey now c) = true →
      decide (lastSeenKey now a ≤ lastSeenKey now c) = true := by
    intro a b c h1 h2
    exact decide_eq_true (le_trans (of_decide_eq_true h1) (of_decide_eq_true h2))
  rcases prune_cases store now maxDays maxItems with ⟨hlen, hdef⟩ | ⟨hlen, hdef⟩
  · refine ⟨?_, ?_, ?_, by decide⟩
    · intro r hr
      rw [hdef] at hr
      exact ageOk_spec (List.mem_filter.mp hr).2
    · rw [hdef]
      omega
    · refine ⟨[], ?_, ?_⟩
      · rw [hdef, List.nil_append]
      · intro b hb
        exact absurd hb (List.not_mem_nil b)
  · refine ⟨?_, ?_, ?_, by decide⟩
    · intro r hr
      rw [hdef] at hr
      have hr2 := List.mem_of_mem_drop hr
      have hr3 := (isortBy_perm _ _).mem_iff.mp hr2
      exact ageOk_spec (List.mem_filter.mp hr3).2
    · rw [hdef, List.length_drop, (isortBy_perm _ _).length_eq]
      omega
    · refine ⟨(isortBy (fun a b => lastSeenKey now a ≤ lastSeenKey now b)
          (store.filter (ageOk now maxDays))).take
          ((store.filter (ageOk now maxDays)).length - maxItems), ?_, ?_⟩
      · rw [hdef, List.take_append_drop]
        exact (isortBy_perm _ _).symm
      · intro b hb a ha
        rw [hdef] at ha
        have hpw := pairwise_isortBy hle_total hle_trans
          (store.filter (ageOk now maxDays))
        rw [← List.take_append_drop
            ((store.filter (ageOk now maxDays)).length - maxItems)
            (isortBy (fun a b => lastSeenKey now a ≤ lastSeenKey now b)
              (store.filter (ageOk now maxDays)))] at hpw
        exact of_decide_eq_true ((List.pairwise_append.mp hpw).2.2 b hb a ha)

/-- Witness for the C7 theorem at the three concrete records. -/
theorem prune_spec_witness :
    prune [itemObs1, itemObs2, itemObs3] pruneNow 30 2 = [itemObs2, itemObs3] :=
  (prune_spec [itemObs1, itemObs2, itemObs3] pruneNow 30 2).2.2.2

/-! ## Merge lemmas -/

theorem countKey_insertStore (store : List StoredItem) (v : StoredItem) :
    countKey (insertStore store v) v.key = 1 := by
  unfold countKey insertStore
  rw [List.filter_append]
  have h1 : (store.filter (fun x => x.key ≠ v.key)).filter
      (fun x => x.key = v.key) = [] := by
    rw [List.filter_eq_nil_iff]
    intro a ha
    have h2 := (List.mem_filter.mp ha).2
    simp only [decide_eq_true_eq] at h2 ⊢
    exact h2
  rw [h1]
  simp

theorem lookupStore_insertStore (store : List StoredItem) (v : StoredItem) :
    lookupStore (insertStore store v) v.key = some v := by
  unfold lookupStore insertStore
  induction store with
  | nil => simp
  | cons x xs ih =>
      by_cases h : x.key = v.key <;> simp [h, ih]

theorem merge_from_feed_single (store : List StoredItem) (cand : QiitaItem)
    (t : String) (k : String) (hk : item_key cand = some k) :
    merge_from_feed store [cand] t =
      (insertStore store (storedOfItem k cand t), 1) := by
  unfold merge_from_feed
  simp only [List.foldl_cons, List.foldl_nil, hk]

theorem item_key_isSome (item : QiitaItem) : (item_key item).isSome = true := by
  rcases hid : item.item_id with _ | id <;> simp [item_key, hid]

/-! ## Claim C8: last-write-wins merge -/

/-- Claim C8 (confirmed): merge is last-write-wins and idempotent per
key: merging the same candidate twice (at times t1 then t2) leaves
exactly one stored record under its key, whose descriptive fields and
count come from the second merge and whose last_seen is t2; and every
merge of a candidate wholesale overwrites any prior record under that
key, with no field-level diffing. -/
theorem merge_lww_spec (store : List StoredItem) (cand : QiitaItem)
    (t1 t2 k : String) (hk : item_key cand = some k) :
    countKey (merge_from_feed (merge_from_feed store [cand] t1).1 [cand] t2).1 k = 1 ∧
    lookupStore (merge_from_feed (merge_from_feed store [cand] t1).1 [cand] t2).1 k
      = some (storedOfItem k cand t2) ∧
    (∀ st : List StoredItem,
        (merge_from_feed st [cand] t2).1 = insertStore st (storedOfItem k cand t2) ∧
        lookupStore (merge_from_feed st [cand] t2).1 k
          = some (storedOfItem k cand t2)) := by
  refine ⟨?_, ?_, ?_⟩
  · rw [merge_from_feed_single _ cand t2 k hk]
    exact countKey_insertStore ((merge_from_feed store [cand] t1).1)
      (storedOfItem k cand t2)
  · rw [merge_from_feed_single _ cand t2 k hk]
    exact lookupStore_insertStore ((merge_from_feed store [cand] t1).1)
      (storedOfItem k cand t2)
  · intro st
    constructor
    · rw [merge_from_feed_single st cand t2 k hk]
    · rw [merge_from_feed_single st cand t2 k hk]
      exact lookupStore_insertStore st (storedOfItem k cand t2)

/-- Witness for the C8 theorem: merging the same candidate twice leaves
one record carrying the second merge's fields and time. -/
theorem merge_lww_spec_witness :
    countKey (merge_from_feed (merge_from_feed [] [candItem] "2024-01-01T00:00:00Z").1
        [candItem] "2024-01-02T00:00:00Z").1 "abc123" = 1 ∧
    lookupStore (merge_from_feed (merge_from_feed [] [candItem] "2024-01-01T00:00:00Z").1
        [candItem] "2024-01-02T00:00:00Z").1 "abc123"
      = some (storedOfItem "abc123" candItem "2024-01-02T00:00:00Z") :=
  ⟨(merge_lww_spec [] candItem "2024-01-01T00:00:00Z" "2024-01-02T00:00:00Z"
      "abc123" rfl).1,
   (merge_lww_spec [] candItem "2024-01-01T00:00:00Z" "2024-01-02T00:00:00Z"
      "abc123" rfl).2.1⟩

/-! ## Claim C10: merge never drops a candidate -/

/-- Claim C10 (confirmed): merge_from_feed merges every element and
returns exactly the length of the input list; item_key never returns
none (when the endpoint id is absent it falls back to the always-present
link field), so the skip branch inside merge is unreachable. -/
theorem merge_never_skips (store : List StoredItem) (items : List QiitaItem)
    (nowStr : String) :
    (merge_from_feed store items nowStr).2 = items.length ∧
    (∀ item : QiitaItem, (item_key item).isSome = true) := by
  constructor
  · have aux : ∀ (its : List QiitaItem) (acc : List StoredItem × Nat),
        (its.foldl
          (fun acc item =>
            match item_key item with
            | none => acc
            | some key => (insertStore acc.1 (storedOfItem key item nowStr), acc.2 + 1))
          acc).2 = acc.2 + its.length := by
      intro its
      induction its with
      | nil => intro acc; simp
      | cons it rest ih =>
          intro acc
          rcases hid : it.item_id with _ | id
          · have hk : item_key it = some it.link := by unfold item_key; rw [hid]
            simp only [List.foldl_cons, hk]
            rw [ih]
            simp only [List.length_cons]
            omega
          · have hk : item_key it = some id := by unfold item_key; rw [hid]
            simp only [List.foldl_cons, hk]
            rw [ih]
            simp only [List.length_cons]
            omega
    unfold merge_from_feed
    rw [aux items (store, 0)]
    simp
  · intro item
    exact item_key_isSome item

end QiitaFeed
